import Mathlib

/-!
Verification of the character/line width core of `src/nvim/plines.h` and
its width engines. The header (`CSType`, `CharsizeArg`, `CharSize`,
`win_charsize`, `linetabsize_str`, `win_linetabsize`) is translated
directly from `src/src/nvim/plines.h`; the engine bodies
(`charsize_fast`, `charsize_regular`, `linesize_fast`, `linesize_regular`,
`linetabsize_col`, `init_charsize_arg`) live in `plines.c`, which is not
part of the given sources, so they are modelled from the spec as noted on
each definition. A line is modelled as a list of decoded code points; a
buffer position is the index of a code point in that list; columns and
widths are integers (C `int`), with C `%` on the nonnegative columns that
occur here agreeing with `Int.emod`.
-/

/-- The TAB code point. -/
def TAB : Int := 9

/-- Modelled from the spec: the external Cell-Width Primitive (§2, §6 of the
spec; `char2cells` in the source, not under the given sources): intrinsic
screen width of one decoded code point (0, 1 or 2) together with the
control-character escape rule. Printable ASCII is single width; control
characters render in two-cell escape form; representative zero-width
(combining marks U+0300..U+036F) and double-width (Hangul Jamo, CJK)
ranges are included. -/
def char2cells (chr : Int) : Int :=
  if 0x20 ≤ chr ∧ chr < 0x7F then 1
  else if chr < 0x20 ∨ chr = 0x7F then 2
  else if 0x300 ≤ chr ∧ chr ≤ 0x36F then 0
  else if 0x1100 ≤ chr ∧ chr ≤ 0x115F then 2
  else if 0x4E00 ≤ chr ∧ chr ≤ 0x9FFF then 2
  else 1

/-- Mode tag, `typedef bool CSType` from `plines.h`. -/
def CSType := Bool

/-- Regular mode, value 0 of the `plines.h` enum. -/
def kCharsizeRegular : CSType := false

/-- Fast mode, value 1 of the `plines.h` enum. -/
def kCharsizeFast : CSType := true

instance : DecidableEq CSType := instDecidableEqBool

/-- Modelled from the spec: the owning window's configuration surface
(`win_T *win` in `plines.h`; §6 Configuration source and Annotation
index): the tab-stop width, the width of the wrap decoration
('showbreak'/'breakindent'), the buffer position where the cursor will be
placed, and the inline virtual-text entries of the line under
consideration, each an (anchor position, display width) pair. -/
structure win_T where
  ts : Int
  decor_width : Int
  cursor_pos : Nat
  anns : List (Nat × Int)
  deriving Repr, DecidableEq

/-- Structure `CharsizeArg` from `plines.h`. The `win` handle is replaced by the
configuration it supplies (`ts`, `decor_width`, `cursor_pos`, `anns`,
see `win_T`); `char *line` becomes the list of decoded code points;
`indent_width` uses `none` for the `INT_MIN` "not yet calculated"
sentinel; the `MarkTreeIter` is subsumed by `anns` (the spec's
forward-only cursor is an optimization over this index). -/
structure CharsizeArg where
  ts : Int
  decor_width : Int
  cursor_pos : Nat
  anns : List (Nat × Int)
  line : List Int
  use_tabstop : Bool
  indent_width : Option Int
  virt_row : Int
  cur_text_width_left : Int
  cur_text_width_right : Int
  max_head_vcol : Int
  deriving Repr, DecidableEq

/-- Structure `CharSize` from `plines.h`: total width and the 'breakindent' etc.
head portion included in it. -/
structure CharSize where
  width : Int
  head : Int
  deriving Repr, DecidableEq

/-- Modelled from the spec: tab stepping (§4.2): a tab at column `vcol`
with tab-stop width `ts` occupies `ts - vcol % ts` cells. -/
def tabstop_padding (vcol ts : Int) : Int :=
  ts - vcol % ts

/-- Modelled from the spec: `charsize_fast` (§4.2 Character Width Engine,
Fast mode; implementation not under the given sources). A tab with
tab-stop expansion enabled gets `tabstop_padding`; any other code point
(and a tab rendered as a control glyph) gets its intrinsic/escape cell
width. `head` is always 0: no wrap-decoration or virtual-text lookups
happen in this mode. -/
def charsize_fast (csarg : CharsizeArg) (vcol : Int) (chr : Int) : CharSize :=
  if chr = TAB ∧ csarg.use_tabstop then
    { width := tabstop_padding vcol csarg.ts, head := 0 }
  else
    { width := char2cells chr, head := 0 }

/-- Modelled from the spec: total display width of the inline virtual
text anchored at buffer position `pos` (§4.3 second bullet), zero when
`virt_row` is the -1 "no virtual text" sentinel. -/
def annWidthAt (csarg : CharsizeArg) (pos : Nat) : Int :=
  if 0 ≤ csarg.virt_row then
    ((csarg.anns.filter (fun a => a.1 = pos)).map (fun a => a.2)).sum
  else 0

/-- Modelled from the spec: the head-capping policy selected by the sign
of `max_head_vcol` (§4.3; doc comment of `win_charsize` in `plines.h`):
positive caps by absolute column (count only before that column), negative
counts only while scanning toward the cursor position, zero counts
unconditionally. -/
def headCounted (csarg : CharsizeArg) (vcol : Int) (pos : Nat) : Bool :=
  if 0 < csarg.max_head_vcol then vcol < csarg.max_head_vcol
  else if csarg.max_head_vcol < 0 then pos < csarg.cursor_pos
  else true

/-- Modelled from the spec: the wrap-decoration width a context resolves
to: the cached `indent_width` when already computed, the configured
`decor_width` otherwise (the lazy computation, §3 and §4.3). -/
def iwOf (csarg : CharsizeArg) : Int :=
  csarg.indent_width.getD csarg.decor_width

/-- Modelled from the spec: `charsize_regular` (§4.3 Character Width
Engine, Regular mode; implementation not under the given sources).
A zero-width combining code point is 0 wide with no tab or virtual-text
logic. Otherwise the wrap-decoration width is resolved through the lazy
`indent_width` cache (computed from the configured `decor_width` on first
use, reused afterwards) and charged, for the first character of the line
only, to `width` unconditionally and to `head` subject to the
`max_head_vcol` policy; virtual text anchored at this position is added to
`width` only; a tab steps from the column that already includes those
additions. Returns the result together with the context whose cache was
possibly filled in. -/
def charsize_regular (csarg : CharsizeArg) (pos : Nat) (vcol : Int) (chr : Int) :
    CharSize × CharsizeArg :=
  if char2cells chr = 0 then
    ({ width := 0, head := 0 }, csarg)
  else
    let iw := iwOf csarg
    let csarg1 := { csarg with indent_width := some iw }
    let decor := if pos = 0 ∧ iw ≠ 0 then iw else 0
    let ann := annWidthAt csarg pos
    let extra := decor + ann
    let cells :=
      if chr = TAB ∧ csarg.use_tabstop then tabstop_padding (vcol + extra) csarg.ts
      else char2cells chr
    let head := if pos = 0 ∧ iw ≠ 0 ∧ headCounted csarg vcol pos then iw else 0
    ({ width := extra + cells, head := head }, csarg1)

/-- Dispatcher `win_charsize` from `plines.h`: exact two-way dispatch on the mode
tag; `kCharsizeFast` selects the fast engine, anything else the regular
engine. The C function mutates `csarg` in place; here the (possibly
updated) context is returned alongside the `CharSize`. -/
def win_charsize (cstype : CSType) (vcol : Int) (pos : Nat) (chr : Int)
    (csarg : CharsizeArg) : CharSize × CharsizeArg :=
  if cstype = kCharsizeFast then
    (charsize_fast csarg vcol chr, csarg)
  else
    charsize_regular csarg pos vcol chr

/-- Modelled from the spec: `linesize_fast` (§4.4 Line Width Accumulator;
implementation not under the given sources): sum of fast-mode widths over
the first `len` characters of the context's line, scanning from column
`vcol`. -/
def linesize_fast_go (csarg : CharsizeArg) : Int → List Int → Int
  | _, [] => 0
  | vcol, chr :: rest =>
    let w := (charsize_fast csarg vcol chr).width
    w + linesize_fast_go csarg (vcol + w) rest

/-- Modelled from the spec: entry point of the fast accumulator over the
first `len` characters. -/
def linesize_fast (csarg : CharsizeArg) (vcol : Int) (len : Nat) : Int :=
  linesize_fast_go csarg vcol (csarg.line.take len)

/-- Modelled from the spec: `linesize_regular` (§4.4; implementation not
under the given sources): sum of regular-mode widths over a suffix of
characters starting at buffer position `pos` and column `vcol`, threading
the context (its lazy cache) through the scan. -/
def linesize_regular_go (csarg : CharsizeArg) (pos : Nat) (vcol : Int) :
    List Int → Int
  | [] => 0
  | chr :: rest =>
    let res := charsize_regular csarg pos vcol chr
    res.1.width + linesize_regular_go res.2 (pos + 1) (vcol + res.1.width) rest

/-- Modelled from the spec: entry point of the regular accumulator over
the first `len` characters. -/
def linesize_regular (csarg : CharsizeArg) (vcol : Int) (len : Nat) : Int :=
  linesize_regular_go csarg 0 vcol (csarg.line.take len)

/-- Modelled from the spec: `init_charsize_arg` (§4.1 Mode Classifier;
implementation not under the given sources): builds the Line Context from
the window configuration and the line, and picks `kCharsizeFast` exactly
when no wrap decoration is active and no virtual text lies on the line;
tab-stop expansion is on, the lazy `indent_width` starts at its sentinel,
`virt_row` is -1 when the line has no virtual text, the cursor-adjacent
extra widths start at 0 and `max_head_vcol` at 0 (uncapped). `lnum` names
the line whose virtual text `wp.anns` holds. -/
def init_charsize_arg (wp : win_T) (lnum : Nat) (line : List Int) :
    CSType × CharsizeArg :=
  let _ := lnum
  let csarg : CharsizeArg :=
    { ts := wp.ts
      decor_width := wp.decor_width
      cursor_pos := wp.cursor_pos
      anns := wp.anns
      line := line
      use_tabstop := true
      indent_width := none
      virt_row := if wp.anns = [] then -1 else 0
      cur_text_width_left := 0
      cur_text_width_right := 0
      max_head_vcol := 0 }
  if wp.decor_width = 0 ∧ wp.anns = [] then (kCharsizeFast, csarg)
  else (kCharsizeRegular, csarg)

/-- Dispatcher `win_linetabsize` from `plines.h`: classify the line once via
`init_charsize_arg`, then run the matching accumulator over the first
`len` characters from column 0. -/
def win_linetabsize (wp : win_T) (lnum : Nat) (line : List Int) (len : Nat) : Int :=
  let res := init_charsize_arg wp lnum line
  if res.1 = kCharsizeFast then linesize_fast res.2 0 len
  else linesize_regular res.2 0 len

/-- Modelled from the spec: the default configuration used by windowless
entry points (§6 `stringWidth`): tab stop 8, tab expansion on, no wrap
decoration, no virtual text, no capping. -/
def default_csarg (s : List Int) : CharsizeArg :=
  { ts := 8
    decor_width := 0
    cursor_pos := 0
    anns := []
    line := s
    use_tabstop := true
    indent_width := none
    virt_row := -1
    cur_text_width_left := 0
    cur_text_width_right := 0
    max_head_vcol := 0 }

/-- Modelled from the spec: `linetabsize_col` (implementation not under
the given sources): the regular accumulator over the whole string under
the default configuration, starting at the given column. -/
def linetabsize_col (startcol : Int) (s : List Int) : Int :=
  linesize_regular_go (default_csarg s) 0 startcol s

/-- Entry point `linetabsize_str` from `plines.h`: the whole-line width of `s` from
column 0 under the default configuration. -/
def linetabsize_str (s : List Int) : Int :=
  linetabsize_col 0 s

/-- The per-character Character Size stream of a scan: the widths produced
by `win_charsize` for each character in buffer-position order, threading
column and context exactly as the accumulators do. -/
def charWidths (cstype : CSType) (csarg : CharsizeArg) (pos : Nat) (vcol : Int) :
    List Int → List Int
  | [] => []
  | chr :: rest =>
    let res := win_charsize cstype vcol pos chr csarg
    res.1.width :: charWidths cstype res.2 (pos + 1) (vcol + res.1.width) rest

/-- Well-formed configuration as promised by the collaborators (§6):
positive tab-stop width, nonnegative configured and cached
wrap-decoration widths, nonnegative virtual-text widths. -/
def WF (csarg : CharsizeArg) : Prop :=
  0 < csarg.ts ∧ 0 ≤ csarg.decor_width ∧ 0 ≤ iwOf csarg ∧
    ∀ a ∈ csarg.anns, 0 ≤ a.2

instance (csarg : CharsizeArg) : Decidable (WF csarg) := by
  unfold WF
  infer_instance

/-! ## Basic facts about the primitives -/

/-- The cell-width primitive only returns 0, 1 or 2, hence is nonnegative. -/
lemma char2cells_nonneg (chr : Int) : 0 ≤ char2cells chr := by
  unfold char2cells
  split_ifs <;> norm_num

/-- A tab rendered as a control glyph is two cells wide. -/
lemma char2cells_TAB : char2cells TAB = 2 := by decide

/-- Tab stepping always advances by at least one cell for a positive
tab-stop width. -/
lemma tabstop_padding_pos (vcol ts : Int) (h : 0 < ts) :
    0 < tabstop_padding vcol ts := by
  have hlt := Int.emod_lt_of_pos vcol h
  unfold tabstop_padding
  omega

/-- Virtual-text width at a position is nonnegative when every entry's
width is. -/
lemma annWidthAt_nonneg (csarg : CharsizeArg) (pos : Nat)
    (h : ∀ a ∈ csarg.anns, 0 ≤ a.2) : 0 ≤ annWidthAt csarg pos := by
  unfold annWidthAt
  split
  · refine List.sum_nonneg ?_
    intro x hx
    obtain ⟨a, ha, rfl⟩ := List.mem_map.1 hx
    exact h a (List.mem_filter.1 ha).1
  · exact le_refl 0

/-- With the -1 sentinel for `virt_row`, no virtual-text width is ever
contributed. -/
lemma annWidthAt_sentinel (csarg : CharsizeArg) (pos : Nat)
    (h : csarg.virt_row < 0) : annWidthAt csarg pos = 0 := by
  unfold annWidthAt
  rw [if_neg (by omega)]

/-! ## Claims -/

/-- C1: in Fast mode a tab at column `vcol` with positive tab-stop width
`ts` and tab expansion enabled yields width `ts - vcol % ts` with head 0,
`vcol + width` is a multiple of `ts`; with `ts = 8` the line "a\tb" from
column 0 has per-character widths [1, 7, 1] summing to 9, and "\t\t" from
column 3 has widths [5, 8] summing to 13. -/
theorem C1_fast_tab_width (csarg : CharsizeArg) (vcol : Int)
    (htab : csarg.use_tabstop = true) (hts : 0 < csarg.ts) :
    charsize_fast csarg vcol TAB
        = { width := csarg.ts - vcol % csarg.ts, head := 0 } ∧
      (vcol + (charsize_fast csarg vcol TAB).width) % csarg.ts = 0 ∧
      charWidths kCharsizeFast (default_csarg [97, 9, 98]) 0 0 [97, 9, 98]
        = [1, 7, 1] ∧
      linesize_fast (default_csarg [97, 9, 98]) 0 3 = 9 ∧
      charWidths kCharsizeFast (default_csarg [9, 9]) 0 3 [9, 9] = [5, 8] ∧
      linesize_fast (default_csarg [9, 9]) 3 2 = 13 := by
  have h1 : charsize_fast csarg vcol TAB
      = { width := tabstop_padding vcol csarg.ts, head := 0 } := by
    unfold charsize_fast
    rw [if_pos ⟨rfl, htab⟩]
  refine ⟨by rw [h1]; rfl, ?_, by decide, by decide, by decide, by decide⟩
  rw [h1]
  show (vcol + tabstop_padding vcol csarg.ts) % csarg.ts = 0
  have h2 : vcol % csarg.ts + csarg.ts * (vcol / csarg.ts) = vcol :=
    Int.emod_add_ediv vcol csarg.ts
  have e1 : csarg.ts * (vcol / csarg.ts + 1)
      = csarg.ts * (vcol / csarg.ts) + csarg.ts := by ring
  have h3 : vcol + tabstop_padding vcol csarg.ts
      = csarg.ts * (vcol / csarg.ts + 1) := by
    unfold tabstop_padding
    linarith [h2, e1]
  rw [h3]
  exact Int.mul_emod_right _ _

/-- Witness for C1 at `vcol = 3`, `ts = 8`. -/
theorem C1_fast_tab_width_witness :
    charsize_fast (default_csarg []) 3 TAB = { width := 5, head := 0 } :=
  (C1_fast_tab_width (default_csarg []) 3 (by decide) (by decide)).1.trans
    (by decide)

/-- C8: a code point with intrinsic cell width 0 (combining mark) gets
Character Size `(0, 0)` in both modes, at every column and position, with
no tab or virtual-text contribution. -/
theorem C8_zero_width (cstype : CSType) (csarg : CharsizeArg) (vcol : Int)
    (pos : Nat) (chr : Int) (h : char2cells chr = 0) :
    (win_charsize cstype vcol pos chr csarg).1 = { width := 0, head := 0 } := by
  have hne : chr ≠ TAB := by
    intro e
    rw [e, char2cells_TAB] at h
    exact absurd h (by norm_num)
  unfold win_charsize
  split
  · unfold charsize_fast
    rw [if_neg (fun hc => hne hc.1), h]
  · unfold charsize_regular
    rw [if_pos h]

/-- Witness for C8 at the combining mark U+0300 in Regular mode. -/
theorem C8_zero_width_witness :
    (win_charsize kCharsizeRegular 5 0 0x300 (default_csarg [0x300])).1
      = { width := 0, head := 0 } :=
  C8_zero_width kCharsizeRegular (default_csarg [0x300]) 5 0 0x300 (by decide)

/-- C10: `win_charsize` is an exact case analysis on the two-valued mode
tag (`kCharsizeFast` selects the fast engine, every other tag the regular
engine, and every tag is exactly one of the two), and `win_linetabsize`
classifies once via `init_charsize_arg` and runs `linesize_fast` exactly
when that classification is `kCharsizeFast`, else `linesize_regular`. -/
theorem C10_dispatch :
    (∀ (vcol : Int) (pos : Nat) (chr : Int) (csarg : CharsizeArg),
        win_charsize kCharsizeFast vcol pos chr csarg
          = (charsize_fast csarg vcol chr, csarg)) ∧
    (∀ cstype : CSType, cstype ≠ kCharsizeFast →
      ∀ (vcol : Int) (pos : Nat) (chr : Int) (csarg : CharsizeArg),
        win_charsize cstype vcol pos chr csarg
          = charsize_regular csarg pos vcol chr) ∧
    (∀ cstype : CSType,
        (cstype = kCharsizeFast ∧ cstype ≠ kCharsizeRegular) ∨
        (cstype = kCharsizeRegular ∧ cstype ≠ kCharsizeFast)) ∧
    (∀ (wp : win_T) (lnum : Nat) (line : List Int) (len : Nat),
        win_linetabsize wp lnum line len =
          if (init_charsize_arg wp lnum line).1 = kCharsizeFast then
            linesize_fast (init_charsize_arg wp lnum line).2 0 len
          else linesize_regular (init_charsize_arg wp lnum line).2 0 len) := by
  refine ⟨?_, ?_, ?_, ?_⟩
  · intro vcol pos chr csarg
    unfold win_charsize
    rw [if_pos rfl]
  · intro cstype h vcol pos chr csarg
    unfold win_charsize
    rw [if_neg h]
  · intro cstype
    cases cstype with
    | false => exact Or.inr ⟨rfl, by decide⟩
    | true => exact Or.inl ⟨rfl, by decide⟩
  · intro wp lnum line len
    rfl

/-- Witness for C10's regular branch at the tag `kCharsizeRegular`. -/
theorem C10_dispatch_witness :
    win_charsize kCharsizeRegular 0 2 97 (default_csarg [97])
      = charsize_regular (default_csarg [97]) 2 0 97 :=
  C10_dispatch.2.1 kCharsizeRegular (by decide) 0 2 97 (default_csarg [97])

/-- Unfolded form of `charsize_regular` on a code point of nonzero
intrinsic width. -/
lemma charsize_regular_spec (csarg : CharsizeArg) (pos : Nat) (vcol : Int)
    (chr : Int) (h0 : char2cells chr ≠ 0) :
    charsize_regular csarg pos vcol chr =
      ({ width := (if pos = 0 ∧ iwOf csarg ≠ 0 then iwOf csarg else 0)
            + annWidthAt csarg pos
            + (if chr = TAB ∧ csarg.use_tabstop then
                tabstop_padding
                  (vcol + ((if pos = 0 ∧ iwOf csarg ≠ 0 then iwOf csarg else 0)
                    + annWidthAt csarg pos)) csarg.ts
              else char2cells chr),
          head := if pos = 0 ∧ iwOf csarg ≠ 0 ∧ headCounted csarg vcol pos
            then iwOf csarg else 0 },
        { csarg with indent_width := some (iwOf csarg) }) := by
  unfold charsize_regular
  rw [if_neg h0]

/-- On a zero-width code point the regular engine is the constant
`(0, 0)` and leaves the context untouched. -/
lemma charsize_regular_zero (csarg : CharsizeArg) (pos : Nat) (vcol : Int)
    (chr : Int) (h0 : char2cells chr = 0) :
    charsize_regular csarg pos vcol chr = ({ width := 0, head := 0 }, csarg) := by
  unfold charsize_regular
  rw [if_pos h0]

/-- Fast-mode sizes have nonnegative width and zero head. -/
lemma charsize_fast_invariants (csarg : CharsizeArg) (vcol : Int) (chr : Int)
    (hts : 0 < csarg.ts) :
    0 ≤ (charsize_fast csarg vcol chr).width ∧
      (charsize_fast csarg vcol chr).head = 0 := by
  unfold charsize_fast
  split_ifs with h
  · exact ⟨(tabstop_padding_pos vcol csarg.ts hts).le, rfl⟩
  · exact ⟨char2cells_nonneg chr, rfl⟩

/-- Regular-mode sizes satisfy the Character Size invariants under a
well-formed configuration. -/
lemma charsize_regular_invariants (csarg : CharsizeArg) (pos : Nat)
    (vcol : Int) (chr : Int) (hts : 0 < csarg.ts) (hiw : 0 ≤ iwOf csarg)
    (hann : ∀ a ∈ csarg.anns, 0 ≤ a.2) :
    0 ≤ (charsize_regular csarg pos vcol chr).1.width ∧
      0 ≤ (charsize_regular csarg pos vcol chr).1.head ∧
      (charsize_regular csarg pos vcol chr).1.head
        ≤ (charsize_regular csarg pos vcol chr).1.width := by
  have ha := annWidthAt_nonneg csarg pos hann
  have hc := char2cells_nonneg chr
  by_cases h0 : char2cells chr = 0
  · rw [charsize_regular_zero csarg pos vcol chr h0]
    exact ⟨le_refl 0, le_refl 0, le_refl 0⟩
  · rw [charsize_regular_spec csarg pos vcol chr h0]
    have hp1 := tabstop_padding_pos
      (vcol + (iwOf csarg + annWidthAt csarg pos)) csarg.ts hts
    have hp2 := tabstop_padding_pos
      (vcol + (0 + annWidthAt csarg pos)) csarg.ts hts
    simp only
    split_ifs <;> refine ⟨?_, ?_, ?_⟩ <;> omega

/-- C2: every Character Size produced by `win_charsize`, in either mode,
at any column, position and character, under a well-formed Line Context,
has nonnegative width, nonnegative head, and head at most width. -/
theorem C2_size_invariants (cstype : CSType) (csarg : CharsizeArg)
    (vcol : Int) (pos : Nat) (chr : Int) (h : WF csarg) :
    0 ≤ (win_charsize cstype vcol pos chr csarg).1.width ∧
      0 ≤ (win_charsize cstype vcol pos chr csarg).1.head ∧
      (win_charsize cstype vcol pos chr csarg).1.head
        ≤ (win_charsize cstype vcol pos chr csarg).1.width := by
  obtain ⟨hts, hdw, hiw, hann⟩ := h
  unfold win_charsize
  split
  · have hf := charsize_fast_invariants csarg vcol chr hts
    exact ⟨hf.1, hf.2.ge, hf.2.le.trans hf.1⟩
  · exact charsize_regular_invariants csarg pos vcol chr hts hiw hann

/-- Witness for C2: both modes on a tab at column 3 in the default
context. -/
theorem C2_size_invariants_witness :
    0 ≤ (win_charsize kCharsizeRegular 3 0 9 (default_csarg [9])).1.width ∧
      0 ≤ (win_charsize kCharsizeRegular 3 0 9 (default_csarg [9])).1.head ∧
      (win_charsize kCharsizeRegular 3 0 9 (default_csarg [9])).1.head
        ≤ (win_charsize kCharsizeRegular 3 0 9 (default_csarg [9])).1.width :=
  C2_size_invariants kCharsizeRegular (default_csarg [9]) 3 0 9 (by decide)

/-- On a line with no active wrap decoration and no virtual text, the
regular engine computes exactly the fast engine's Character Size. -/
lemma charsize_regular_fst_eq_fast (csarg : CharsizeArg) (h1 : iwOf csarg = 0)
    (h2 : csarg.virt_row < 0) (pos : Nat) (vcol : Int) (chr : Int) :
    (charsize_regular csarg pos vcol chr).1 = charsize_fast csarg vcol chr := by
  have hann := annWidthAt_sentinel csarg pos h2
  by_cases h0 : char2cells chr = 0
  · have hne : chr ≠ TAB := by
      intro e
      rw [e, char2cells_TAB] at h0
      exact absurd h0 (by norm_num)
    rw [charsize_regular_zero csarg pos vcol chr h0]
    unfold charsize_fast
    rw [if_neg (fun hc => hne hc.1), h0]
  · rw [charsize_regular_spec csarg pos vcol chr h0]
    unfold charsize_fast
    simp only [h1, hann]
    split_ifs <;> simp

/-- C3: with no active wrap decoration and no virtual text, Fast and
Regular mode return identical Character Sizes for every character at
every column, so the Mode Classifier choosing Fast for such a line cannot
change any computed width. -/
theorem C3_mode_equivalence (csarg : CharsizeArg) (h1 : iwOf csarg = 0)
    (h2 : csarg.virt_row < 0) :
    ∀ (pos : Nat) (vcol : Int) (chr : Int) (cstype : CSType),
      (charsize_regular csarg pos vcol chr).1 = charsize_fast csarg vcol chr ∧
      (win_charsize cstype vcol pos chr csarg).1
        = charsize_fast csarg vcol chr := by
  intro pos vcol chr cstype
  have h := charsize_regular_fst_eq_fast csarg h1 h2 pos vcol chr
  refine ⟨h, ?_⟩
  unfold win_charsize
  split
  · rfl
  · exact h

/-- Witness for C3: a tab at column 5 of the default context, queried
through both mode tags. -/
theorem C3_mode_equivalence_witness :
    ((charsize_regular (default_csarg [9]) 0 5 9).1
        = charsize_fast (default_csarg [9]) 5 9) ∧
      (win_charsize kCharsizeRegular 5 0 9 (default_csarg [9])).1
        = charsize_fast (default_csarg [9]) 5 9 :=
  C3_mode_equivalence (default_csarg [9]) (by decide) (by decide) 0 5 9
    kCharsizeRegular

/-- Fast-mode sizes ignore the lazy `indent_width` cache field. -/
lemma charsize_fast_indent (csarg : CharsizeArg) (iw : Option Int)
    (vcol : Int) (chr : Int) :
    charsize_fast { csarg with indent_width := iw } vcol chr
      = charsize_fast csarg vcol chr := rfl

/-- The fast accumulator ignores the lazy `indent_width` cache field. -/
lemma linesize_fast_go_indent (csarg : CharsizeArg) (iw : Option Int) :
    ∀ (l : List Int) (vcol : Int),
      linesize_fast_go { csarg with indent_width := iw } vcol l
        = linesize_fast_go csarg vcol l := by
  intro l
  induction l with
  | nil => intro vcol; rfl
  | cons c rest ih =>
    intro vcol
    simp only [linesize_fast_go, charsize_fast_indent, ih]

/-- With no active wrap decoration and no virtual text, the regular
accumulator agrees with the fast accumulator from any position and
column. -/
lemma linesize_regular_go_eq_fast :
    ∀ (l : List Int) (csarg : CharsizeArg), iwOf csarg = 0 →
      csarg.virt_row < 0 → ∀ (pos : Nat) (vcol : Int),
      linesize_regular_go csarg pos vcol l = linesize_fast_go csarg vcol l := by
  intro l
  induction l with
  | nil => intro csarg h1 h2 pos vcol; rfl
  | cons c rest ih =>
    intro csarg h1 h2 pos vcol
    have hfst := charsize_regular_fst_eq_fast csarg h1 h2 pos vcol c
    by_cases h0 : char2cells c = 0
    · have hr := charsize_regular_zero csarg pos vcol c h0
      simp only [linesize_regular_go, linesize_fast_go, hfst, hr]
      rw [ih csarg h1 h2 (pos + 1) _]
      rw [hr] at hfst
      simp only [← hfst]
    · have hr := charsize_regular_spec csarg pos vcol c h0
      have hsnd : (charsize_regular csarg pos vcol c).2
          = { csarg with indent_width := some 0 } := by
        rw [hr, h1]
      simp only [linesize_regular_go, linesize_fast_go, hfst, hsnd]
      rw [ih { csarg with indent_width := some 0 } (by simp [iwOf]) h2 (pos + 1) _]
      rw [linesize_fast_go_indent csarg (some 0) rest _]

/-- C9: the windowless entry point equals `linetabsize_col` at starting
column 0, and under the default configuration (tab stop 8, no wrap
decoration, no virtual text) the latter is exactly the plain fast
accumulation over the string: tab expansion but no window-derived policy,
no decoration, no virtual text. -/
theorem C9_string_width :
    (∀ s : List Int, linetabsize_str s = linetabsize_col 0 s) ∧
    (∀ (s : List Int) (startcol : Int),
      linetabsize_col startcol s
        = linesize_fast_go (default_csarg s) startcol s) := by
  refine ⟨fun s => rfl, fun s startcol => ?_⟩
  unfold linetabsize_col
  exact linesize_regular_go_eq_fast s (default_csarg s) rfl
    (by norm_num [default_csarg]) 0 startcol

/-- Clearing the virtual-text entries removes every virtual-text width
contribution. -/
lemma annWidthAt_empty (csarg : CharsizeArg) (pos : Nat) :
    annWidthAt { csarg with anns := [] } pos = 0 := by
  unfold annWidthAt
  simp

/-- C4: requerying the regular engine on the context it returned yields
the same Character Size and the same context (the lazily cached
wrap-decoration width is never recomputed once set); a character at a
nonzero position computes the same Character Size as if no decoration
were configured at all; the first character of a line with an uncapped
context and nonzero resolved decoration gets that decoration in `head`;
and with decoration width 4 and content "x" the first character's
Character Size is width 5, head 4. -/
theorem C4_decoration_once :
    (∀ (csarg : CharsizeArg) (pos : Nat) (vcol : Int) (chr : Int),
        charsize_regular (charsize_regular csarg pos vcol chr).2 pos vcol chr
          = charsize_regular csarg pos vcol chr) ∧
    (∀ (csarg : CharsizeArg) (pos : Nat) (vcol : Int) (chr : Int), pos ≠ 0 →
        (charsize_regular csarg pos vcol chr).1
          = (charsize_regular
              { csarg with decor_width := 0, indent_width := some 0 }
              pos vcol chr).1) ∧
    (∀ (csarg : CharsizeArg) (vcol : Int) (chr : Int),
        csarg.max_head_vcol = 0 → iwOf csarg ≠ 0 → char2cells chr ≠ 0 →
        (charsize_regular csarg 0 vcol chr).1.head = iwOf csarg) ∧
    (charsize_regular
        (init_charsize_arg
          { ts := 8, decor_width := 4, cursor_pos := 0, anns := [] } 1 [120]).2
        0 0 120).1
      = { width := 5, head := 4 } := by
  refine ⟨?_, ?_, ?_, by decide⟩
  · intro csarg pos vcol chr
    by_cases h0 : char2cells chr = 0
    · rw [charsize_regular_zero csarg pos vcol chr h0]
      exact charsize_regular_zero csarg pos vcol chr h0
    · rw [charsize_regular_spec csarg pos vcol chr h0]
      rw [charsize_regular_spec { csarg with indent_width := some (iwOf csarg) }
        pos vcol chr h0]
      simp [iwOf, annWidthAt, headCounted]
  · intro csarg pos vcol chr hpos
    by_cases h0 : char2cells chr = 0
    · rw [charsize_regular_zero csarg pos vcol chr h0,
        charsize_regular_zero _ pos vcol chr h0]
    · rw [charsize_regular_spec csarg pos vcol chr h0,
        charsize_regular_spec _ pos vcol chr h0]
      simp [hpos, annWidthAt]
  · intro csarg vcol chr hmh hiw h0
    rw [charsize_regular_spec csarg 0 vcol chr h0]
    show (if (0 : Nat) = 0 ∧ iwOf csarg ≠ 0 ∧ headCounted csarg vcol 0
        then iwOf csarg else 0) = iwOf csarg
    rw [if_pos]
    refine ⟨rfl, hiw, ?_⟩
    unfold headCounted
    rw [hmh]
    simp

/-- Witness for C4's universally quantified parts at position 1 of a
decorated context. -/
theorem C4_decoration_once_witness :
    (charsize_regular { default_csarg [97, 98] with decor_width := 4 } 1 0 98).1
      = (charsize_regular
          { default_csarg [97, 98] with decor_width := 0, indent_width := some 0 }
          1 0 98).1 := by
  have h := C4_decoration_once.2.1
    { default_csarg [97, 98] with decor_width := 4 } 1 0 98 (by decide)
  exact h.trans (by decide)

/-- C5: the sign of `max_head_vcol` selects the head-capping policy of
the regular engine: when positive, the resolved decoration is counted in
`head` exactly when the column where it would appear is before that
threshold; when negative, exactly while the scan has not yet reached the
cursor position; beyond the cap the decoration contribution to `head` is
zero. -/
theorem C5_head_cap (csarg : CharsizeArg) (pos : Nat) (vcol : Int) (chr : Int) :
    (0 < csarg.max_head_vcol → csarg.max_head_vcol ≤ vcol →
        (charsize_regular csarg pos vcol chr).1.head = 0) ∧
    (csarg.max_head_vcol < 0 → csarg.cursor_pos ≤ pos →
        (charsize_regular csarg pos vcol chr).1.head = 0) ∧
    (0 < csarg.max_head_vcol → vcol < csarg.max_head_vcol → pos = 0 →
        iwOf csarg ≠ 0 → char2cells chr ≠ 0 →
        (charsize_regular csarg pos vcol chr).1.head = iwOf csarg) ∧
    (csarg.max_head_vcol < 0 → pos < csarg.cursor_pos → pos = 0 →
        iwOf csarg ≠ 0 → char2cells chr ≠ 0 →
        (charsize_regular csarg pos vcol chr).1.head = iwOf csarg) := by
  by_cases h0 : char2cells chr = 0
  · rw [charsize_regular_zero csarg pos vcol chr h0]
    exact ⟨fun _ _ => rfl, fun _ _ => rfl,
      fun _ _ _ _ hc => absurd h0 hc, fun _ _ _ _ hc => absurd h0 hc⟩
  · rw [charsize_regular_spec csarg pos vcol chr h0]
    refine ⟨?_, ?_, ?_, ?_⟩
    · intro hmh hle
      show (if pos = 0 ∧ iwOf csarg ≠ 0 ∧ headCounted csarg vcol pos
          then iwOf csarg else 0) = 0
      rw [if_neg]
      rintro ⟨-, -, hcount⟩
      unfold headCounted at hcount
      rw [if_pos hmh] at hcount
      simp only [decide_eq_true_eq] at hcount
      omega
    · intro hmh hle
      show (if pos = 0 ∧ iwOf csarg ≠ 0 ∧ headCounted csarg vcol pos
          then iwOf csarg else 0) = 0
      rw [if_neg]
      rintro ⟨-, -, hcount⟩
      unfold headCounted at hcount
      rw [if_neg (by omega), if_pos hmh] at hcount
      simp only [decide_eq_true_eq] at hcount
      omega
    · intro hmh hlt hpos hiw hc
      show (if pos = 0 ∧ iwOf csarg ≠ 0 ∧ headCounted csarg vcol pos
          then iwOf csarg else 0) = iwOf csarg
      rw [if_pos]
      refine ⟨hpos, hiw, ?_⟩
      unfold headCounted
      rw [if_pos hmh]
      simpa using hlt
    · intro hmh hlt hpos hiw hc
      show (if pos = 0 ∧ iwOf csarg ≠ 0 ∧ headCounted csarg vcol pos
          then iwOf csarg else 0) = iwOf csarg
      rw [if_pos]
      refine ⟨hpos, hiw, ?_⟩
      unfold headCounted
      rw [if_neg (by omega), if_pos hmh]
      simpa using hlt

/-- Witness for C5: a positive cap already passed (head 0) and a
negative cap with the cursor ahead (head counted), on decorated
contexts. -/
theorem C5_head_cap_witness :
    (charsize_regular
        { default_csarg [120] with decor_width := 4, max_head_vcol := 5 }
        0 7 120).1.head = 0 ∧
      (charsize_regular
          { default_csarg [120] with
              decor_width := 4, max_head_vcol := -1, cursor_pos := 2 }
          0 0 120).1.head
        = iwOf { default_csarg [120] with
            decor_width := 4, max_head_vcol := -1, cursor_pos := 2 } :=
  ⟨(C5_head_cap
      { default_csarg [120] with decor_width := 4, max_head_vcol := 5 }
      0 7 120).1 (by decide) (by decide),
    (C5_head_cap
        { default_csarg [120] with
            decor_width := 4, max_head_vcol := -1, cursor_pos := 2 }
        0 0 120).2.2.2 (by decide) (by decide) (by decide) (by decide)
      (by decide)⟩

/-- Clearing the virtual-text entries does not change the resolved
wrap-decoration width. -/
lemma iwOf_anns (csarg : CharsizeArg) :
    iwOf { csarg with anns := [] } = iwOf csarg := rfl

/-- C7: virtual text anchored at the current position with the virtual
row active adds its display width to `width` and nothing to `head`; a
line "abc" with one width-3 entry anchored at position 2 totals
width(a) + width(b) + 3 + width(c). -/
theorem C7_virtual_text_width :
    (∀ (csarg : CharsizeArg) (pos : Nat) (vcol : Int) (chr : Int),
        0 ≤ csarg.virt_row → chr ≠ TAB → char2cells chr ≠ 0 →
        (charsize_regular csarg pos vcol chr).1.width
            = annWidthAt csarg pos
              + (charsize_regular { csarg with anns := [] } pos vcol chr).1.width
          ∧ (charsize_regular csarg pos vcol chr).1.head
            = (charsize_regular { csarg with anns := [] } pos vcol chr).1.head) ∧
    win_linetabsize
        { ts := 8, decor_width := 0, cursor_pos := 0, anns := [(2, 3)] }
        1 [97, 98, 99] 3
      = char2cells 97 + char2cells 98 + 3 + char2cells 99 := by
  refine ⟨?_, by decide⟩
  intro csarg pos vcol chr hvr hne h0
  rw [charsize_regular_spec csarg pos vcol chr h0,
    charsize_regular_spec { csarg with anns := [] } pos vcol chr h0]
  constructor
  · show (if pos = 0 ∧ iwOf csarg ≠ 0 then iwOf csarg else 0)
        + annWidthAt csarg pos
        + (if chr = TAB ∧ csarg.use_tabstop then
            tabstop_padding
              (vcol + ((if pos = 0 ∧ iwOf csarg ≠ 0 then iwOf csarg else 0)
                + annWidthAt csarg pos)) csarg.ts
          else char2cells chr)
      = annWidthAt csarg pos
        + ((if pos = 0 ∧ iwOf { csarg with anns := [] } ≠ 0
              then iwOf { csarg with anns := [] } else 0)
          + annWidthAt { csarg with anns := [] } pos
          + (if chr = TAB ∧ csarg.use_tabstop then
              tabstop_padding
                (vcol + ((if pos = 0 ∧ iwOf { csarg with anns := [] } ≠ 0
                    then iwOf { csarg with anns := [] } else 0)
                  + annWidthAt { csarg with anns := [] } pos)) csarg.ts
            else char2cells chr))
    rw [annWidthAt_empty, iwOf_anns]
    simp only [hne, false_and, if_false]
    ring
  · show (if pos = 0 ∧ iwOf csarg ≠ 0 ∧ headCounted csarg vcol pos
        then iwOf csarg else 0)
      = (if pos = 0 ∧ iwOf { csarg with anns := [] } ≠ 0
            ∧ headCounted { csarg with anns := [] } vcol pos
          then iwOf { csarg with anns := [] } else 0)
    rfl

/-- Witness for C7's per-character part: a width-2 entry anchored at
position 0 under an active virtual row. -/
theorem C7_virtual_text_width_witness :
    (charsize_regular
          { default_csarg [97] with anns := [(0, 2)], virt_row := 0 }
          0 0 97).1.width
        = annWidthAt { default_csarg [97] with anns := [(0, 2)], virt_row := 0 } 0
          + (charsize_regular
              { { default_csarg [97] with anns := [(0, 2)], virt_row := 0 }
                  with anns := [] } 0 0 97).1.width
      ∧ (charsize_regular
            { default_csarg [97] with anns := [(0, 2)], virt_row := 0 }
            0 0 97).1.head
        = (charsize_regular
            { { default_csarg [97] with anns := [(0, 2)], virt_row := 0 }
                with anns := [] } 0 0 97).1.head :=
  C7_virtual_text_width.1
    { default_csarg [97] with anns := [(0, 2)], virt_row := 0 }
    0 0 97 (by decide) (by decide) (by decide)

/-- Summing the fast-mode Character Size stream is the fast
accumulator. -/
lemma charWidths_fast_sum :
    ∀ (l : List Int) (csarg : CharsizeArg) (pos : Nat) (vcol : Int),
      (charWidths kCharsizeFast csarg pos vcol l).sum
        = linesize_fast_go csarg vcol l := by
  intro l
  induction l with
  | nil => intro csarg pos vcol; rfl
  | cons c rest ih =>
    intro csarg pos vcol
    simp only [charWidths, linesize_fast_go, win_charsize, List.sum_cons,
      reduceIte]
    rw [ih]

/-- Summing the regular-mode Character Size stream is the regular
accumulator. -/
lemma charWidths_regular_sum :
    ∀ (l : List Int) (csarg : CharsizeArg) (pos : Nat) (vcol : Int),
      (charWidths kCharsizeRegular csarg pos vcol l).sum
        = linesize_regular_go csarg pos vcol l := by
  intro l
  induction l with
  | nil => intro csarg pos vcol; rfl
  | cons c rest ih =>
    intro csarg pos vcol
    simp only [charWidths, linesize_regular_go, win_charsize, List.sum_cons]
    rw [if_neg (show kCharsizeRegular ≠ kCharsizeFast by decide)]
    rw [ih]

/-- The Line Context built by the Mode Classifier carries the scanned
line itself. -/
lemma init_charsize_arg_line (wp : win_T) (lnum : Nat) (line : List Int) :
    (init_charsize_arg wp lnum line).2.line = line := by
  unfold init_charsize_arg
  split_ifs <;> rfl

/-- C6: the whole-line accumulator started at column 0 equals the sum of
the `width` fields produced by `win_charsize` over every character of the
line in increasing buffer-position order, in whichever mode the
classifier chose. -/
theorem C6_line_accumulator (wp : win_T) (lnum : Nat) (line : List Int) :
    win_linetabsize wp lnum line line.length
      = (charWidths (init_charsize_arg wp lnum line).1
          (init_charsize_arg wp lnum line).2 0 0 line).sum := by
  simp only [win_linetabsize]
  by_cases hm : (init_charsize_arg wp lnum line).1 = kCharsizeFast
  · rw [if_pos hm, hm]
    unfold linesize_fast
    rw [init_charsize_arg_line, List.take_length]
    exact (charWidths_fast_sum line _ 0 0).symm
  · have hreg : (init_charsize_arg wp lnum line).1 = kCharsizeRegular :=
      Bool.eq_false_iff.mpr hm
    rw [if_neg hm, hreg]
    unfold linesize_regular
    rw [init_charsize_arg_line, List.take_length]
    exact (charWidths_regular_sum line _ 0 0).symm
